import Mathlib

/-!
Shallow embedding of `src/plugins/analysis/kernel_config/code/kernel_config.py`
(FACT_core kernel-config analysis plugin).

Byte buffers (Python `bytes`) are modelled as `List Nat` (each entry one byte);
decoded text (Python `str`) is modelled as `List Nat` of Unicode code points.
Python dicts are modelled as association lists with distinct keys; a raised
exception is modelled by `Except.error ()`.
-/

namespace KernelConfig

/-- The fixed magic byte signature `MAGIC_WORD = b'IKCFG_ST\037\213'`
(the bytes of `IKCFG_ST` followed by octal 37 = 31 and octal 213 = 139). -/
def MAGIC_WORD : List Nat := [73, 75, 67, 70, 71, 95, 83, 84, 31, 139]

/-- Python `buf.find(pat)`: index of the first occurrence of `pat` as a
contiguous substring of `buf`; `none` models the return value `-1`. -/
def bytesFind (pat : List Nat) : List Nat → Option Nat
  | [] => if pat.isEmpty then some 0 else none
  | b :: rest =>
    if pat.isPrefixOf (b :: rest) then some 0
    else (bytesFind pat rest).map (· + 1)

/-- A UTF-8 continuation byte (`0x80`–`0xBF`). -/
def isCont (b : Nat) : Bool := 128 ≤ b && b ≤ 191

/-- Strict UTF-8 decoding of a byte list into code points, modelling Python's
`bytes.decode()` (which defaults to strict UTF-8): rejects stray continuation
bytes, overlong encodings, surrogate code points and values above `0x10FFFF`.
`none` models a raised `UnicodeDecodeError`. -/
def utf8Decode : List Nat → Option (List Nat)
  | [] => some []
  | b :: rest =>
    if b ≤ 127 then
      match utf8Decode rest with
      | some cps => some (b :: cps)
      | none => none
    else if 192 ≤ b && b ≤ 223 then
      match rest with
      | b1 :: rest2 =>
        if isCont b1 then
          let cp := (b - 192) * 64 + (b1 - 128)
          if 128 ≤ cp then
            match utf8Decode rest2 with
            | some cps => some (cp :: cps)
            | none => none
          else none
        else none
      | [] => none
    else if 224 ≤ b && b ≤ 239 then
      match rest with
      | b1 :: b2 :: rest2 =>
        if isCont b1 && isCont b2 then
          let cp := (b - 224) * 4096 + (b1 - 128) * 64 + (b2 - 128)
          if 2048 ≤ cp && !(55296 ≤ cp && cp ≤ 57343) then
            match utf8Decode rest2 with
            | some cps => some (cp :: cps)
            | none => none
          else none
        else none
      | _ => none
    else if 240 ≤ b && b ≤ 247 then
      match rest with
      | b1 :: b2 :: b3 :: rest2 =>
        if isCont b1 && isCont b2 && isCont b3 then
          let cp := (b - 240) * 262144 + (b1 - 128) * 4096 + (b2 - 128) * 64 + (b3 - 128)
          if 65536 ≤ cp && cp ≤ 1114111 then
            match utf8Decode rest2 with
            | some cps => some (cp :: cps)
            | none => none
          else none
        else none
      | _ => none
    else none

/-- The code points of a string literal (used to embed the Python pattern and
string constants; all constants in the plugin are ASCII). -/
def cps (s : String) : List Nat := s.data.map Char.toNat

/-- Split decoded text at newline code points (10). This realises Python's
`re.MULTILINE` anchoring: `^` matches at the start of the text and after each
newline, `$` before each newline and at the end, so a `^...$` pattern whose
elements cannot match a newline matches exactly the members of this list. -/
def splitNl : List Nat → List (List Nat)
  | [] => [[]]
  | c :: rest =>
    if c = 10 then [] :: splitNl rest
    else
      match splitNl rest with
      | l :: ls => (c :: l) :: ls
      | [] => [[c]]

/-- Python regex `\w` (word character). Python's class additionally admits
non-ASCII Unicode word characters; the model restricts to ASCII
(`[A-Za-z0-9_]`), on which the two agree. -/
def isWordCp (c : Nat) : Bool :=
  (48 ≤ c && c ≤ 57) || (65 ≤ c && c ≤ 90) || (97 ≤ c && c ≤ 122) || c = 95

/-- Python regex `\d` (decimal digit). Python's class additionally admits
non-ASCII Unicode digits; the model restricts to ASCII (`[0-9]`). -/
def isDigitCp (c : Nat) : Bool := 48 ≤ c && c ≤ 57

/-- A single line matching the compiled pattern
`kernel_pattern = ^# Linux.* Kernel Configuration$`: the literal prefix
`# Linux` (7 characters), any line characters, and the literal suffix
` Kernel Configuration` (21 characters). -/
def bannerMatch (line : List Nat) : Bool :=
  (cps "# Linux").isPrefixOf line && (cps " Kernel Configuration").isSuffixOf line
    && 28 ≤ line.length

/-- The `(\d+|[ymn])` alternative of `config_pattern`: one or more digits, or a
single `y` (121), `m` (109) or `n` (110). -/
def isDirectiveValue (v : List Nat) : Bool :=
  (!v.isEmpty && v.all isDigitCp) || v = [121] || v = [109] || v = [110]

/-- The `\w+=(\d+|[ymn])$` part of `config_pattern`, applied to what follows the
`(CONFIG|# CONFIG)_` prefix: since `\w` and the value alternatives never match
`=` (61), the match splits the remainder at its unique `=`. -/
def isDirectiveTail (rest : List Nat) : Bool :=
  let w := rest.takeWhile (fun c => c ≠ 61)
  match rest.dropWhile (fun c => c ≠ 61) with
  | _ :: v => !w.isEmpty && w.all isWordCp && isDirectiveValue v
  | [] => false

/-- A single line matching the compiled pattern
`config_pattern = ^(CONFIG|# CONFIG)_\w+=(\d+|[ymn])$`. The two alternatives
are distinguished by their first character, so no backtracking interleaves
them. -/
def directiveMatch (line : List Nat) : Bool :=
  if (cps "CONFIG_").isPrefixOf line then isDirectiveTail (line.drop 7)
  else if (cps "# CONFIG_").isPrefixOf line then isDirectiveTail (line.drop 9)
  else false

/-- `AnalysisPlugin.probably_kernel_config`: decode the raw bytes (a
`UnicodeDecodeError` yields `False`), then require at least one
`kernel_pattern` match and at least one `config_pattern` match (`findall` in
multiline mode finds a match iff some line matches the anchored pattern). -/
def probably_kernel_config (raw_data : List Nat) : Bool :=
  match utf8Decode raw_data with
  | none => false
  | some content =>
    let lines := splitNl content
    (lines.any bannerMatch) && (lines.any directiveMatch)

/-- `AnalysisPlugin.try_object_extract_ikconfig`, with the external
`decompress` capability (`decomp.decompress`, outside this core) as a
parameter: it returns the ordered list of successful decodings of its input. -/
def try_object_extract_ikconfig (decompress : List Nat → List (List Nat))
    (raw_data : List Nat) : List Nat :=
  let step : Option (List Nat) :=
    match bytesFind MAGIC_WORD raw_data with
    | some _ => some raw_data
    | none =>
      match decompress raw_data with
      | [] => none
      | inner0 :: _ => some inner0
  match step with
  | none => []
  | some container =>
    match bytesFind MAGIC_WORD container with
    | none => []
    | some start_offset =>
      match decompress (container.drop start_offset) with
      | [] => []
      | config0 :: _ => config0

/-- The relevant part of the host framework's `FileObject`: the binary content,
the file name, and the two upstream analysis results the plugin reads.
`file_type_mime` is `some m` iff `processed_analysis` has a `file_type` entry
with a `mime` key holding `m`; `software_components_summary` is `some l` iff it
has a `software_components` entry with a `summary` key holding the hint list. -/
structure FileObject where
  binary : List Nat
  file_name : String
  file_type_mime : Option String
  software_components_summary : Option (List String)

/-- `AnalysisPlugin.object_mime_is_plaintext`: the `file_type`/`mime` entry
exists and equals `text/plain`. -/
def object_mime_is_plaintext (file_object : FileObject) : Bool :=
  file_object.file_type_mime = some "text/plain"

/-- Python `str.lower()`. Python lowercases the full Unicode repertoire; the
model restricts to ASCII (`Char.toLower`), on which the two agree. -/
def pyLower (s : String) : String := s.map Char.toLower

/-- Python's substring containment `pat in text`: `pat` occurs as a contiguous
run inside `text`. -/
def listContains [BEq α] (pat : List α) : List α → Bool
  | [] => pat.isEmpty
  | b :: rest => pat.isPrefixOf (b :: rest) || listContains pat rest

/-- `AnalysisPlugin.object_is_kernel_image`: the `software_components`/`summary`
entry exists and some hint's lowercased text contains `linux kernel`. -/
def object_is_kernel_image (file_object : FileObject) : Bool :=
  match file_object.software_components_summary with
  | none => false
  | some comps =>
    comps.any (fun component => listContains ("linux kernel".toList) (pyLower component).toList)

/-- The plugin's result record `file_object.processed_analysis['kernel_config']`:
each field is `some v` iff the dict has that key with value `v`. `α` is the
type of the values in the external auditor's JSON report. -/
structure AnalysisResult (α : Type) where
  is_kernel_config : Option Bool := none
  kernel_config : Option (List Nat) := none
  summary : Option (List String) := none
  checksec : Option (List (String × List (String × α))) := none

/-- An auditor report section: a JSON object mapping flag names to values,
modelled as an association list with distinct keys. -/
abbrev AuditSection (α : Type) := List (String × α)

/-- The auditor's JSON report: a mapping from section name to section. -/
abbrev AuditReport (α : Type) := List (String × AuditSection α)

/-- Python `d[k]` read: the value at the first matching key, `none` modelling
a raised `KeyError`. -/
def dictGet (k : String) : List (String × β) → Option β
  | [] => none
  | (k', v) :: rest => if k' = k then some v else dictGet k rest

/-- Python `d[k] = v` / in-place mutation of the dict value stored under an
existing key `k`: replaces the value at the first matching key. -/
def updateVal (k : String) (v : β) : List (String × β) → List (String × β)
  | [] => []
  | (k', v') :: rest => if k' = k then (k', v) :: rest else (k', v') :: updateVal k v rest

/-- `KERNEL_WHITELIST`: the fixed allow-list for the `kernel` section. -/
def KERNEL_WHITELIST : List String :=
  ["kernel_heap_randomization", "gcc_stack_protector", "gcc_stack_protector_strong",
   "gcc_structleak", "gcc_structleak_byref", "slab_freelist_randomization", "cpu_sw_domain",
   "virtually_mapped_stack", "restrict_dev_mem_access", "restrict_io_dev_mem_access",
   "ro_kernel_data", "ro_module_data", "full_refcount_validation", "hardened_usercopy",
   "fortify_source", "restrict_dev_kmem_access", "strict_user_copy_check",
   "random_address_space_layout", "arm_kernmem_perms", "arm_strict_rodata",
   "unmap_kernel_in_userspace", "harden_branch_predictor", "harden_el2_vector_mapping",
   "speculative_store_bypass_disable", "emulate_privileged_access_never",
   "randomize_kernel_address", "randomize_module_region_full"]

/-- `GRSECURITY_WHITELIST`: the fixed allow-list for the `grsecurity` section. -/
def GRSECURITY_WHITELIST : List String :=
  ["grsecurity_config", "config_pax_kernexec", "config_pax_noexec", "config_pax_pageexec",
   "config_pax_mprotect", "config_pax_aslr", "config_pax_randkstack", "config_pax_randustack",
   "config_pax_randmmap", "config_pax_memory_sanitize", "config_pax_memory_stackleak",
   "config_pax_memory_uderef", "config_pax_refcount", "config_pax_usercopy",
   "config_grkernsec_jit_harden", "config_bpf_jit", "config_grkernsec_rand_threadstack",
   "config_grkernsec_kmem", "config_grkernsec_io", "config_grkernsec_modharden",
   "config_modules", "config_grkernsec_chroot", "config_grkernsec_harden_ptrace",
   "config_grkernsec_randnet", "config_grkernsec_blackhole", "config_grkernsec_brute",
   "config_grkernsec_hidesym"]

/-- The loop body of `whitelist_configs` on one section: `for key in d.copy():
if key not in whitelist: del d[key]` keeps, in order, exactly the entries whose
key is in the whitelist. -/
def filterSection (whitelist : List String) (sec : AuditSection α) : AuditSection α :=
  sec.filter (fun kv => kv.1 ∈ whitelist)

/-- `whitelist_configs`: filters the `kernel` section in place, then the
`grsecurity` section. Reading a missing section raises `KeyError`
(`Except.error ()`); the first section's mutation precedes the second read,
matching the statement order. -/
def whitelist_configs (config_results : AuditReport α) : Except Unit (AuditReport α) :=
  match dictGet "kernel" config_results with
  | none => Except.error ()
  | some ksec =>
    let r1 := updateVal "kernel" (filterSection KERNEL_WHITELIST ksec) config_results
    match dictGet "grsecurity" r1 with
    | none => Except.error ()
    | some gsec => Except.ok (updateVal "grsecurity" (filterSection GRSECURITY_WHITELIST gsec) r1)

/-- `AnalysisPlugin.check_kernel_config`, with the external auditor run
(`execute_shell_command` on `checksec` plus `json.loads`) abstracted into its
outcome: `Except.error ()` models a `JSONDecodeError` from `json.loads`,
`Except.ok r` the parsed report. Both the `JSONDecodeError` and the `KeyError`
possibly raised by `whitelist_configs` are caught and yield the empty dict. -/
def check_kernel_config (auditor_outcome : Except Unit (AuditReport α)) : AuditReport α :=
  match auditor_outcome with
  | Except.error _ => []
  | Except.ok result =>
    match whitelist_configs result with
    | Except.error _ => []
    | Except.ok result' => result'

/-- `AnalysisPlugin._get_summary`: `['Kernel Config']` iff the record holds
`is_kernel_config` with value `True`, else `[]`. -/
def get_summary (results : AnalysisResult α) : List String :=
  if results.is_kernel_config = some true then ["Kernel Config"] else []

/-- `AnalysisPlugin.add_kernel_config_to_analysis`: sets `is_kernel_config` to
`True` and `kernel_config` to `config_bytes.decode()`; a `UnicodeDecodeError`
from `.decode()` would propagate (`Except.error ()`). The `add_analysis_tag`
side effect lies outside the result record and is not modelled. -/
def add_kernel_config_to_analysis (res : AnalysisResult α) (config_bytes : List Nat) :
    Except Unit (AnalysisResult α) :=
  match utf8Decode config_bytes with
  | none => Except.error ()
  | some text => Except.ok { res with is_kernel_config := some true, kernel_config := some text }

/-- `AnalysisPlugin.process_object`. External capabilities are parameters:
`decompress` as in `try_object_extract_ikconfig`, and `auditor` giving, for the
extracted configuration text, the outcome of running `checksec` on it and
JSON-parsing its output (cf. `check_kernel_config`). The returned record is
`file_object.processed_analysis['kernel_config']`; `Except.error ()` models an
uncaught exception escaping the call. -/
def process_object (decompress : List Nat → List (List Nat))
    (auditor : List Nat → Except Unit (AuditReport α))
    (file_object : FileObject) : Except Unit (AnalysisResult α) :=
  let step1 : Except Unit (AnalysisResult α) :=
    if object_mime_is_plaintext file_object && probably_kernel_config file_object.binary then
      add_kernel_config_to_analysis {} file_object.binary
    else if file_object.file_name = "configs.ko" || object_is_kernel_image file_object then
      let maybe_config := try_object_extract_ikconfig decompress file_object.binary
      if probably_kernel_config maybe_config then
        add_kernel_config_to_analysis {} maybe_config
      else Except.ok {}
    else Except.ok {}
  match step1 with
  | Except.error e => Except.error e
  | Except.ok res1 =>
    let res2 := { res1 with summary := some (get_summary res1) }
    match res2.kernel_config with
    | some config_text =>
      Except.ok { res2 with checksec := some (check_kernel_config (auditor config_text)) }
    | none => Except.ok res2

/-! ### Spec-side characterizations of the two regular expressions -/

/-- Spec wording of the banner pattern: a line of the form
`# Linux<anything> Kernel Configuration`. -/
def BannerSpec (line : List Nat) : Prop :=
  ∃ mid, line = cps "# Linux" ++ mid ++ cps " Kernel Configuration"

/-- Spec wording of the directive value: `<digits>` (one or more) or one of
`y`, `m`, `n`. -/
def ValueSpec (v : List Nat) : Prop :=
  (v ≠ [] ∧ ∀ c ∈ v, isDigitCp c = true) ∨ v = cps "y" ∨ v = cps "m" ∨ v = cps "n"

/-- Spec wording of the directive pattern: a line of the form
`(CONFIG|# CONFIG)_<word-characters>=<value>` with a nonempty word part. -/
def DirectiveSpec (line : List Nat) : Prop :=
  ∃ p w v, (p = cps "CONFIG" ∨ p = cps "# CONFIG") ∧
    line = p ++ [95] ++ w ++ [61] ++ v ∧
    w ≠ [] ∧ (∀ c ∈ w, isWordCp c = true) ∧ ValueSpec v

/-- A genuine kernel-configuration text (the spec's own example), as bytes
(ASCII, so bytes and code points coincide). -/
def exConfigText : List Nat :=
  cps "# Linux 5.4.0 Kernel Configuration\nCONFIG_FOO=y\n# CONFIG_BAR=n\n"

/-- A plain-text file object carrying `exConfigText`. -/
def exPlainObject : FileObject :=
  ⟨exConfigText, "configuration.txt", some "text/plain", none⟩

/-- A decompression capability that never yields a candidate. -/
def noDecomp : List Nat → List (List Nat) := fun _ => []

/-- An auditor run whose output fails to parse as JSON. -/
def noAudit : List Nat → Except Unit (AuditReport Unit) := fun _ => Except.error ()

/-- A two-section audit report with one allow-listed and one stray flag. -/
def exReport : AuditReport Nat :=
  [("kernel", [("gcc_stack_protector", 0), ("unrelated_flag", 1)]),
   ("grsecurity", [("config_pax_aslr", 2), ("other_flag", 3)])]

/-- `exReport` after the hardening-result filter. -/
def exReportFiltered : AuditReport Nat :=
  [("kernel", [("gcc_stack_protector", 0)]), ("grsecurity", [("config_pax_aslr", 2)])]

theorem bannerMatch_iff (line : List Nat) : bannerMatch line = true ↔ BannerSpec line := by
  unfold bannerMatch BannerSpec
  simp only [Bool.and_eq_true, List.isPrefixOf_iff_prefix, List.isSuffixOf_iff_suffix,
    decide_eq_true_eq]
  constructor
  · rintro ⟨⟨⟨t, ht⟩, ⟨s, hs⟩⟩, hlen⟩
    have hlt : (cps "# Linux").length + t.length = line.length := by
      rw [← ht, List.length_append]
    have ha : (cps "# Linux").length = 7 := by decide
    have hb : (cps " Kernel Configuration").length = 21 := by decide
    have ht21 : 21 ≤ t.length := by omega
    refine ⟨t.take (t.length - 21), ?_⟩
    have hsplit : t.take (t.length - 21) ++ t.drop (t.length - 21) = t :=
      List.take_append_drop _ t
    have hdrop : t.drop (t.length - 21) = cps " Kernel Configuration" := by
      have he : (cps "# Linux" ++ t.take (t.length - 21)) ++ t.drop (t.length - 21)
          = s ++ cps " Kernel Configuration" := by
        rw [List.append_assoc, hsplit, ht, hs]
      refine List.append_inj_right' he ?_
      rw [List.length_drop, hb]
      omega
    have hr : cps "# Linux" ++ t.take (t.length - 21) ++ cps " Kernel Configuration"
        = cps "# Linux" ++ (t.take (t.length - 21) ++ t.drop (t.length - 21)) := by
      rw [hdrop, List.append_assoc]
    rw [hr, hsplit, ht]
  · rintro ⟨mid, rfl⟩
    refine ⟨⟨⟨mid ++ cps " Kernel Configuration", by simp⟩,
        ⟨cps "# Linux" ++ mid, by simp⟩⟩, ?_⟩
    have ha : (cps "# Linux").length = 7 := by decide
    have hb : (cps " Kernel Configuration").length = 21 := by decide
    simp only [List.length_append, ha, hb]
    omega

theorem isDirectiveValue_iff (v : List Nat) : isDirectiveValue v = true ↔ ValueSpec v := by
  have hy : cps "y" = [121] := by decide
  have hm : cps "m" = [109] := by decide
  have hn : cps "n" = [110] := by decide
  unfold isDirectiveValue ValueSpec
  rw [hy, hm, hn]
  simp only [Bool.or_eq_true, Bool.and_eq_true, Bool.not_eq_true', List.isEmpty_eq_false,
    List.all_eq_true, decide_eq_true_eq]
  tauto

theorem isWordCp_ne_eq (c : Nat) (h : isWordCp c = true) : c ≠ 61 := by
  intro hc
  subst hc
  simp [isWordCp] at h

theorem dropWhile_head_not {α : Type} (p : α → Bool) (l : List α) (c : α) (v : List α)
    (h : l.dropWhile p = c :: v) : p c = false := by
  induction l with
  | nil => simp [List.dropWhile] at h
  | cons a l ih =>
    rw [List.dropWhile_cons] at h
    by_cases hp : p a = true
    · rw [if_pos hp] at h
      exact ih h
    · rw [if_neg hp] at h
      cases h
      simpa [Bool.not_eq_true] using hp

theorem isDirectiveTail_iff (rest : List Nat) :
    isDirectiveTail rest = true ↔
      ∃ w v, rest = w ++ [61] ++ v ∧ w ≠ [] ∧ (∀ c ∈ w, isWordCp c = true) ∧ ValueSpec v := by
  constructor
  · intro h
    unfold isDirectiveTail at h
    rcases hd : rest.dropWhile (fun c => decide (c ≠ 61)) with _ | ⟨c, v⟩
    · rw [hd] at h
      exact absurd h (by simp)
    · rw [hd] at h
      simp only [Bool.and_eq_true, Bool.not_eq_true', List.isEmpty_eq_false,
        List.all_eq_true] at h
      obtain ⟨⟨hw, hall⟩, hval⟩ := h
      have hc : c = 61 := by
        have := dropWhile_head_not (fun c => decide (c ≠ 61)) rest c v hd
        simpa using this
      have hrest := (List.takeWhile_append_dropWhile (fun c => decide (c ≠ 61)) rest).symm
      rw [hd, hc] at hrest
      refine ⟨rest.takeWhile (fun c => decide (c ≠ 61)), v, ?_, hw, ?_, ?_⟩
      · exact hrest.trans (by simp)
      · intro x hx
        exact hall x hx
      · exact (isDirectiveValue_iff v).mp hval
  · rintro ⟨w, v, rfl, hw, hall, hval⟩
    unfold isDirectiveTail
    have hwpred : ∀ c ∈ w, (fun c => decide (c ≠ 61)) c = true := by
      intro c hc
      simpa using isWordCp_ne_eq c (hall c hc)
    have htw : (w ++ [61] ++ v).takeWhile (fun c => decide (c ≠ 61)) = w := by
      rw [List.append_assoc, List.takeWhile_append]
      rw [List.takeWhile_eq_self_iff.mpr hwpred]
      simp
    have hdw : (w ++ [61] ++ v).dropWhile (fun c => decide (c ≠ 61)) = 61 :: v := by
      rw [List.append_assoc, List.dropWhile_append]
      rw [List.dropWhile_eq_nil_iff.mpr (by intro x hx; simpa using hwpred x hx)]
      simp
    rw [htw, hdw]
    simp only [Bool.and_eq_true, Bool.not_eq_true', List.isEmpty_eq_false, List.all_eq_true]
    exact ⟨⟨hw, fun c hc => hall c hc⟩, (isDirectiveValue_iff v).mpr hval⟩

theorem directiveMatch_iff (line : List Nat) :
    directiveMatch line = true ↔ DirectiveSpec line := by
  have h1 : cps "CONFIG_" = cps "CONFIG" ++ [95] := by decide
  have h2 : cps "# CONFIG_" = cps "# CONFIG" ++ [95] := by decide
  have hl1 : (cps "CONFIG_").length = 7 := by decide
  have hl2 : (cps "# CONFIG_").length = 9 := by decide
  have hh1 : cps "CONFIG_" = 67 :: cps "ONFIG_" := by decide
  have hh2 : cps "# CONFIG" = 35 :: cps " CONFIG" := by decide
  unfold directiveMatch
  by_cases hp1 : (cps "CONFIG_").isPrefixOf line = true
  · rw [if_pos hp1]
    obtain ⟨t, ht⟩ := List.isPrefixOf_iff_prefix.mp hp1
    have hdrop : line.drop 7 = t := by
      rw [← ht]
      exact List.drop_left' hl1
    rw [hdrop, isDirectiveTail_iff]
    constructor
    · rintro ⟨w, v, rfl, hw, hall, hval⟩
      refine ⟨cps "CONFIG", w, v, Or.inl rfl, ?_, hw, hall, hval⟩
      rw [← ht, h1]
      simp [List.append_assoc]
    · rintro ⟨p, w, v, hp, hline, hw, hall, hval⟩
      rcases hp with rfl | rfl
      · refine ⟨w, v, ?_, hw, hall, hval⟩
        have he : cps "CONFIG_" ++ t = cps "CONFIG_" ++ (w ++ [61] ++ v) := by
          rw [ht, hline, h1]
          simp [List.append_assoc]
        exact List.append_cancel_left he
      · exfalso
        have ha : line.head? = some 67 := by
          rw [← ht, hh1]
          rfl
        have hb : line.head? = some 35 := by
          rw [hline, hh2]
          rfl
        rw [ha] at hb
        exact absurd (Option.some.inj hb) (by decide)
  · rw [if_neg hp1]
    by_cases hp2 : (cps "# CONFIG_").isPrefixOf line = true
    · rw [if_pos hp2]
      obtain ⟨t, ht⟩ := List.isPrefixOf_iff_prefix.mp hp2
      have hdrop : line.drop 9 = t := by
        rw [← ht]
        exact List.drop_left' hl2
      rw [hdrop, isDirectiveTail_iff]
      constructor
      · rintro ⟨w, v, rfl, hw, hall, hval⟩
        refine ⟨cps "# CONFIG", w, v, Or.inr rfl, ?_, hw, hall, hval⟩
        rw [← ht, h2]
        simp [List.append_assoc]
      · rintro ⟨p, w, v, hp, hline, hw, hall, hval⟩
        rcases hp with rfl | rfl
        · exfalso
          apply hp1
          apply List.isPrefixOf_iff_prefix.mpr
          refine ⟨w ++ [61] ++ v, ?_⟩
          rw [hline, h1]
          simp [List.append_assoc]
        · refine ⟨w, v, ?_, hw, hall, hval⟩
          have he : cps "# CONFIG_" ++ t = cps "# CONFIG_" ++ (w ++ [61] ++ v) := by
            rw [ht, hline, h2]
            simp [List.append_assoc]
          exact List.append_cancel_left he
    · rw [if_neg hp2]
      constructor
      · intro h
        exact absurd h (by decide)
      rintro ⟨p, w, v, hp, hline, hw, hall, hval⟩
      exfalso
      rcases hp with rfl | rfl
      · apply hp1
        apply List.isPrefixOf_iff_prefix.mpr
        refine ⟨w ++ [61] ++ v, ?_⟩
        rw [hline, h1]
        simp [List.append_assoc]
      · apply hp2
        apply List.isPrefixOf_iff_prefix.mpr
        refine ⟨w ++ [61] ++ v, ?_⟩
        rw [hline, h2]
        simp [List.append_assoc]

/-! ### Dictionary lemmas for the hardening-result filter -/

theorem dictGet_updateVal_self {β : Type} (k : String) (v w : β) (l : List (String × β))
    (h : dictGet k l = some w) : dictGet k (updateVal k v l) = some v := by
  induction l with
  | nil => simp [dictGet] at h
  | cons kv rest ih =>
    obtain ⟨k', v'⟩ := kv
    by_cases hk : k' = k
    · simp [dictGet, updateVal, hk]
    · rw [dictGet, if_neg hk] at h
      simp [dictGet, updateVal, hk, ih h]

theorem dictGet_updateVal_ne {β : Type} (k k' : String) (v : β) (l : List (String × β))
    (h : k' ≠ k) : dictGet k' (updateVal k v l) = dictGet k' l := by
  induction l with
  | nil => simp [updateVal]
  | cons kv rest ih =>
    obtain ⟨k'', v''⟩ := kv
    by_cases hk : k'' = k
    · subst hk
      rw [updateVal, if_pos rfl, dictGet, dictGet, if_neg (fun he => h he.symm),
        if_neg (fun he => h he.symm)]
    · rw [updateVal, if_neg hk]
      by_cases hk' : k'' = k'
      · rw [dictGet, if_pos hk', dictGet, if_pos hk']
      · rw [dictGet, if_neg hk', dictGet, if_neg hk', ih]

theorem updateVal_same {β : Type} (k : String) (v : β) (l : List (String × β))
    (h : dictGet k l = some v) : updateVal k v l = l := by
  induction l with
  | nil => simp [dictGet] at h
  | cons kv rest ih =>
    obtain ⟨k', v'⟩ := kv
    by_cases hk : k' = k
    · rw [dictGet, if_pos hk] at h
      rw [updateVal, if_pos hk, Option.some.inj h]
    · rw [dictGet, if_neg hk] at h
      rw [updateVal, if_neg hk, ih h]

theorem filterSection_idem {α : Type} (wl : List String) (sec : AuditSection α) :
    filterSection wl (filterSection wl sec) = filterSection wl sec := by
  unfold filterSection
  rw [List.filter_eq_self]
  intro kv hkv
  exact (List.mem_filter.mp hkv).2

/-- What `whitelist_configs` computes when both sections are present. -/
theorem whitelist_configs_ok {α : Type} (r : AuditReport α) (ksec gsec : AuditSection α)
    (hk : dictGet "kernel" r = some ksec) (hg : dictGet "grsecurity" r = some gsec) :
    whitelist_configs r = Except.ok
      (updateVal "grsecurity" (filterSection GRSECURITY_WHITELIST gsec)
        (updateVal "kernel" (filterSection KERNEL_WHITELIST ksec) r)) := by
  unfold whitelist_configs
  rw [hk]
  have hg1 : dictGet "grsecurity"
      (updateVal "kernel" (filterSection KERNEL_WHITELIST ksec) r) = some gsec := by
    rw [dictGet_updateVal_ne _ _ _ _ (by decide), hg]
  dsimp only
  rw [hg1]

/-- `whitelist_configs` raises `KeyError` when the `kernel` section is absent. -/
theorem whitelist_configs_err_kernel {α : Type} (r : AuditReport α)
    (hk : dictGet "kernel" r = none) : whitelist_configs r = Except.error () := by
  unfold whitelist_configs
  rw [hk]

/-- `whitelist_configs` raises `KeyError` when the `grsecurity` section is absent. -/
theorem whitelist_configs_err_grsec {α : Type} (r : AuditReport α)
    (hg : dictGet "grsecurity" r = none) : whitelist_configs r = Except.error () := by
  unfold whitelist_configs
  cases hk : dictGet "kernel" r with
  | none => rfl
  | some ksec =>
    have hg1 : dictGet "grsecurity"
        (updateVal "kernel" (filterSection KERNEL_WHITELIST ksec) r) = none := by
      rw [dictGet_updateVal_ne _ _ _ _ (by decide), hg]
    dsimp only
    rw [hg1]

/-! ### Orchestrator branch equations -/

/-- A buffer the classifier accepts decodes successfully (the classifier
returns `False` on every decode failure), so the `.decode()` inside
`add_kernel_config_to_analysis` cannot raise on a classified buffer. -/
theorem pkc_decode (raw : List Nat) (h : probably_kernel_config raw = true) :
    ∃ text, utf8Decode raw = some text := by
  unfold probably_kernel_config at h
  cases hd : utf8Decode raw with
  | none =>
    rw [hd] at h
    exact absurd h (by simp)
  | some text => exact ⟨text, rfl⟩

theorem process_object_eq_found_plain {α : Type} (d : List Nat → List (List Nat))
    (a : List Nat → Except Unit (AuditReport α)) (fo : FileObject) (text : List Nat)
    (hc : (object_mime_is_plaintext fo && probably_kernel_config fo.binary) = true)
    (hdec : utf8Decode fo.binary = some text) :
    process_object d a fo = Except.ok
      ⟨some true, some text, some ["Kernel Config"], some (check_kernel_config (a text))⟩ := by
  unfold process_object add_kernel_config_to_analysis
  rw [if_pos hc, hdec]
  dsimp only
  rfl

theorem process_object_eq_found_cascade {α : Type} (d : List Nat → List (List Nat))
    (a : List Nat → Except Unit (AuditReport α)) (fo : FileObject) (text : List Nat)
    (hc : (object_mime_is_plaintext fo && probably_kernel_config fo.binary) = false)
    (hk : (fo.file_name = "configs.ko" || object_is_kernel_image fo) = true)
    (hp : probably_kernel_config (try_object_extract_ikconfig d fo.binary) = true)
    (hdec : utf8Decode (try_object_extract_ikconfig d fo.binary) = some text) :
    process_object d a fo = Except.ok
      ⟨some true, some text, some ["Kernel Config"], some (check_kernel_config (a text))⟩ := by
  unfold process_object add_kernel_config_to_analysis
  rw [if_neg (by simp [hc]), if_pos (by simpa using hk), if_pos hp, hdec]
  dsimp only
  rfl

theorem process_object_eq_notconfig_cascade {α : Type} (d : List Nat → List (List Nat))
    (a : List Nat → Except Unit (AuditReport α)) (fo : FileObject)
    (hc : (object_mime_is_plaintext fo && probably_kernel_config fo.binary) = false)
    (hk : (fo.file_name = "configs.ko" || object_is_kernel_image fo) = true)
    (hp : probably_kernel_config (try_object_extract_ikconfig d fo.binary) = false) :
    process_object d a fo = Except.ok ⟨none, none, some [], none⟩ := by
  unfold process_object
  rw [if_neg (by simp [hc]), if_pos (by simpa using hk), if_neg (by simp [hp])]
  rfl

theorem process_object_eq_notconfig {α : Type} (d : List Nat → List (List Nat))
    (a : List Nat → Except Unit (AuditReport α)) (fo : FileObject)
    (hc : (object_mime_is_plaintext fo && probably_kernel_config fo.binary) = false)
    (hk : (fo.file_name = "configs.ko" || object_is_kernel_image fo) = false) :
    process_object d a fo = Except.ok ⟨none, none, some [], none⟩ := by
  unfold process_object
  rw [if_neg (by simp [hc]), if_neg (by simp [hk])]
  rfl

/-- Every run of `process_object` ends in exactly one of two states: the
untouched record (with empty summary), or a found configuration whose text the
classifier accepted as bytes. -/
theorem process_object_shape {α : Type} (d : List Nat → List (List Nat))
    (a : List Nat → Except Unit (AuditReport α)) (fo : FileObject) :
    process_object d a fo = Except.ok (⟨none, none, some [], none⟩ : AnalysisResult α)
    ∨ ∃ config_bytes text, probably_kernel_config config_bytes = true
        ∧ utf8Decode config_bytes = some text
        ∧ process_object d a fo = Except.ok
            ⟨some true, some text, some ["Kernel Config"], some (check_kernel_config (a text))⟩ := by
  by_cases hc : (object_mime_is_plaintext fo && probably_kernel_config fo.binary) = true
  · right
    have hp : probably_kernel_config fo.binary = true := by
      simp only [Bool.and_eq_true] at hc
      exact hc.2
    obtain ⟨text, hdec⟩ := pkc_decode _ hp
    exact ⟨fo.binary, text, hp, hdec, process_object_eq_found_plain d a fo text hc hdec⟩
  · have hc' : (object_mime_is_plaintext fo && probably_kernel_config fo.binary) = false :=
      Bool.eq_false_iff.mpr hc
    by_cases hk : (fo.file_name = "configs.ko" || object_is_kernel_image fo) = true
    · by_cases hp : probably_kernel_config (try_object_extract_ikconfig d fo.binary) = true
      · right
        obtain ⟨text, hdec⟩ := pkc_decode _ hp
        exact ⟨try_object_extract_ikconfig d fo.binary, text, hp, hdec,
          process_object_eq_found_cascade d a fo text hc' hk hp hdec⟩
      · left
        exact process_object_eq_notconfig_cascade d a fo hc' hk (Bool.eq_false_iff.mpr hp)
    · left
      exact process_object_eq_notconfig d a fo hc' (Bool.eq_false_iff.mpr hk)

/-! ### Claims -/

/-- Claim C2: `probably_kernel_config` returns true iff the buffer decodes as
UTF-8 and the decoded text contains, in multiline matching, at least one line
matching `# Linux<anything> Kernel Configuration` and at least one line
matching `(CONFIG|# CONFIG)_<word-characters>=<digits|y|m|n>`; in particular a
buffer failing UTF-8 decoding yields false, and text with only a banner line
or only directive lines yields false. -/
theorem claim_C2 (raw : List Nat) :
    (probably_kernel_config raw = true ↔
      ∃ content, utf8Decode raw = some content
        ∧ (∃ line ∈ splitNl content, BannerSpec line)
        ∧ (∃ line ∈ splitNl content, DirectiveSpec line))
    ∧ (utf8Decode raw = none → probably_kernel_config raw = false)
    ∧ (∀ content, utf8Decode raw = some content →
        (∀ line ∈ splitNl content, ¬ BannerSpec line) → probably_kernel_config raw = false)
    ∧ (∀ content, utf8Decode raw = some content →
        (∀ line ∈ splitNl content, ¬ DirectiveSpec line) → probably_kernel_config raw = false) := by
  cases hd : utf8Decode raw with
  | none =>
    have hf : probably_kernel_config raw = false := by
      unfold probably_kernel_config
      rw [hd]
    refine ⟨?_, fun _ => hf, fun c hc => by simp at hc, fun c hc => by simp at hc⟩
    rw [hf]
    constructor
    · intro h
      exact absurd h (by simp)
    · rintro ⟨c, hc, _⟩
      simp at hc
  | some content =>
    have hval : probably_kernel_config raw
        = ((splitNl content).any bannerMatch && (splitNl content).any directiveMatch) := by
      unfold probably_kernel_config
      rw [hd]
    constructor
    · rw [hval]
      constructor
      · intro h
        simp only [Bool.and_eq_true, List.any_eq_true] at h
        obtain ⟨⟨l1, hl1, hb⟩, l2, hl2, hdm⟩ := h
        exact ⟨content, rfl, ⟨l1, hl1, (bannerMatch_iff l1).mp hb⟩,
          ⟨l2, hl2, (directiveMatch_iff l2).mp hdm⟩⟩
      · rintro ⟨c, hc, ⟨l1, hl1, hb⟩, l2, hl2, hdm⟩
        cases Option.some.inj hc
        simp only [Bool.and_eq_true, List.any_eq_true]
        exact ⟨⟨l1, hl1, (bannerMatch_iff l1).mpr hb⟩, ⟨l2, hl2, (directiveMatch_iff l2).mpr hdm⟩⟩
    refine ⟨fun h => by simp at h, ?_, ?_⟩
    · intro c hc hnone
      cases Option.some.inj hc
      rw [hval]
      simp only [Bool.and_eq_false_iff]
      left
      simp only [List.any_eq_false]
      intro l hl
      intro hb
      exact hnone l hl ((bannerMatch_iff l).mp hb)
    · intro c hc hnone
      cases Option.some.inj hc
      rw [hval]
      simp only [Bool.and_eq_false_iff]
      right
      simp only [List.any_eq_false]
      intro l hl
      intro hdm
      exact hnone l hl ((directiveMatch_iff l).mp hdm)

theorem claim_C2_witness : probably_kernel_config [255] = false :=
  (claim_C2 [255]).2.1 rfl

/-- Claim C3: the Decompression Cascade `try_object_extract_ikconfig` behaves
exactly as specified: signature present in the raw buffer makes it the
container; otherwise one decompression attempt supplies the first candidate as
container (none → empty); the container is searched for the signature (absent
→ empty); the slice from the signature offset is decompressed and the first
candidate returned (none → empty). In particular a buffer without the
signature before or after one decompression attempt yields empty bytes. -/
theorem claim_C3 (d : List Nat → List (List Nat)) (raw : List Nat) :
    (∀ off, bytesFind MAGIC_WORD raw = some off →
      try_object_extract_ikconfig d raw =
        (match d (raw.drop off) with | [] => [] | c :: _ => c))
    ∧ (bytesFind MAGIC_WORD raw = none → d raw = [] →
      try_object_extract_ikconfig d raw = [])
    ∧ (∀ c rest, bytesFind MAGIC_WORD raw = none → d raw = c :: rest →
      try_object_extract_ikconfig d raw =
        (match bytesFind MAGIC_WORD c with
         | none => []
         | some off => match d (c.drop off) with | [] => [] | x :: _ => x))
    ∧ (bytesFind MAGIC_WORD raw = none →
      (∀ c rest, d raw = c :: rest → bytesFind MAGIC_WORD c = none) →
      try_object_extract_ikconfig d raw = []) := by
  refine ⟨?_, ?_, ?_, ?_⟩
  · intro off h
    unfold try_object_extract_ikconfig
    rw [h]
    dsimp only
    rw [h]
  · intro h hd
    unfold try_object_extract_ikconfig
    rw [h, hd]
  · intro c rest h hd
    unfold try_object_extract_ikconfig
    rw [h, hd]
  · intro h hall
    unfold try_object_extract_ikconfig
    rw [h]
    cases hd : d raw with
    | nil => rfl
    | cons c rest =>
      dsimp only
      rw [hall c rest hd]

theorem claim_C3_witness : try_object_extract_ikconfig noDecomp [1, 2, 3] = [] :=
  (claim_C3 noDecomp [1, 2, 3]).2.1 rfl rfl

/-- Claim C9: the classifier's matching is case-sensitive: the lowercase banner
`# linux 5.4.0 kernel configuration` is rejected while the canonical-case text
is accepted, lowercase `config_` directives are rejected, and in general every
banner match carries the exact-case literal prefix and suffix, and every
directive match one of the two exact-case literal prefixes. -/
theorem claim_C9 :
    probably_kernel_config (cps "# linux 5.4.0 kernel configuration\nCONFIG_FOO=y\n") = false
    ∧ probably_kernel_config (cps "# Linux 5.4.0 Kernel Configuration\nCONFIG_FOO=y\n") = true
    ∧ probably_kernel_config (cps "# Linux 5.4.0 Kernel Configuration\nconfig_FOO=y\n") = false
    ∧ (∀ line, bannerMatch line = true →
        (cps "# Linux").isPrefixOf line = true
          ∧ (cps " Kernel Configuration").isSuffixOf line = true)
    ∧ (∀ line, directiveMatch line = true →
        (cps "CONFIG_").isPrefixOf line = true ∨ (cps "# CONFIG_").isPrefixOf line = true) := by
  refine ⟨by decide, by decide, by decide, ?_, ?_⟩
  · intro line h
    unfold bannerMatch at h
    simp only [Bool.and_eq_true] at h
    exact ⟨h.1.1, h.1.2⟩
  · intro line h
    unfold directiveMatch at h
    by_cases h1 : (cps "CONFIG_").isPrefixOf line = true
    · exact Or.inl h1
    · rw [if_neg h1] at h
      by_cases h2 : (cps "# CONFIG_").isPrefixOf line = true
      · exact Or.inr h2
      · rw [if_neg h2] at h
        exact absurd h (by simp)

theorem claim_C9_witness :
    (cps "# Linux").isPrefixOf (cps "# Linux Kernel Configuration") = true
      ∧ (cps " Kernel Configuration").isSuffixOf (cps "# Linux Kernel Configuration") = true :=
  claim_C9.2.2.2.1 (cps "# Linux Kernel Configuration") (by decide)

/-- Claim C4, counterexample: on a report with no `kernel` (and no
`grsecurity`) section, `whitelist_configs` raises `KeyError` instead of
returning a report without those sections, contradicting the claim that an
absent section is simply absent from the output without any error. -/
theorem claim_C4_counterexample :
    whitelist_configs ([] : AuditReport Unit) = Except.error () := rfl

/-- Claim C4, amended: on a report containing both a `kernel` and a
`grsecurity` section, each has every key not in its allow-list removed; if
either section is absent, `whitelist_configs` raises `KeyError`, which its
caller `check_kernel_config` catches, yielding the empty report. -/
theorem claim_C4 {α : Type} (r : AuditReport α) (ksec gsec : AuditSection α) :
    (dictGet "kernel" r = some ksec → dictGet "grsecurity" r = some gsec →
      whitelist_configs r = Except.ok
        (updateVal "grsecurity" (filterSection GRSECURITY_WHITELIST gsec)
          (updateVal "kernel" (filterSection KERNEL_WHITELIST ksec) r)))
    ∧ (dictGet "kernel" r = none → whitelist_configs r = Except.error ())
    ∧ (dictGet "grsecurity" r = none → whitelist_configs r = Except.error ())
    ∧ (whitelist_configs r = Except.error () → check_kernel_config (Except.ok r) = []) := by
  refine ⟨fun hk hg => whitelist_configs_ok r ksec gsec hk hg,
    fun hk => whitelist_configs_err_kernel r hk,
    fun hg => whitelist_configs_err_grsec r hg, fun he => ?_⟩
  unfold check_kernel_config
  dsimp only
  rw [he]

theorem claim_C4_witness : whitelist_configs exReport = Except.ok exReportFiltered :=
  ((claim_C4 exReport [("gcc_stack_protector", 0), ("unrelated_flag", 1)]
    [("config_pax_aslr", 2), ("other_flag", 3)]).1 rfl rfl).trans rfl

/-- Claim C5: the audit step never raises to its caller: a malformed/non-JSON
auditor output yields the empty report, a parsed output missing the `kernel`
or `grsecurity` key yields the empty report, and a whole single-object
analysis (`process_object`) always returns a result record, never an
exception. -/
theorem claim_C5 {α : Type} (out : Except Unit (AuditReport α))
    (d : List Nat → List (List Nat)) (a : List Nat → Except Unit (AuditReport α))
    (fo : FileObject) :
    (out = Except.error () → check_kernel_config out = [])
    ∧ (∀ r, out = Except.ok r →
        (dictGet "kernel" r = none ∨ dictGet "grsecurity" r = none) →
        check_kernel_config out = [])
    ∧ (∃ res, process_object d a fo = Except.ok res) := by
  refine ⟨fun h => by rw [h]; rfl, ?_, ?_⟩
  · rintro r rfl hmiss
    unfold check_kernel_config
    dsimp only
    rcases hmiss with hk | hg
    · rw [whitelist_configs_err_kernel r hk]
    · rw [whitelist_configs_err_grsec r hg]
  · rcases process_object_shape d a fo with h | ⟨_, _, _, _, h⟩
    · exact ⟨_, h⟩
    · exact ⟨_, h⟩

theorem claim_C5_witness :
    check_kernel_config (Except.error () : Except Unit (AuditReport Unit)) = [] :=
  (claim_C5 (Except.error ()) noDecomp noAudit exPlainObject).1 rfl

/-- Claim C7: the hardening-result filter is idempotent: for every report with
both a `kernel` and a `grsecurity` section, filtering the already-filtered
report changes nothing. -/
theorem claim_C7 {α : Type} (r : AuditReport α) (ksec gsec : AuditSection α)
    (hk : dictGet "kernel" r = some ksec) (hg : dictGet "grsecurity" r = some gsec)
    (r' : AuditReport α) (h : whitelist_configs r = Except.ok r') :
    whitelist_configs r' = Except.ok r' := by
  rw [whitelist_configs_ok r ksec gsec hk hg] at h
  have hr' := Except.ok.inj h
  subst hr'
  have hgk : dictGet "grsecurity"
      (updateVal "kernel" (filterSection KERNEL_WHITELIST ksec) r) = some gsec := by
    rw [dictGet_updateVal_ne _ _ _ _ (by decide), hg]
  have hk' : dictGet "kernel"
      (updateVal "grsecurity" (filterSection GRSECURITY_WHITELIST gsec)
        (updateVal "kernel" (filterSection KERNEL_WHITELIST ksec) r))
      = some (filterSection KERNEL_WHITELIST ksec) := by
    rw [dictGet_updateVal_ne _ _ _ _ (by decide)]
    exact dictGet_updateVal_self _ _ _ _ hk
  have hg' : dictGet "grsecurity"
      (updateVal "grsecurity" (filterSection GRSECURITY_WHITELIST gsec)
        (updateVal "kernel" (filterSection KERNEL_WHITELIST ksec) r))
      = some (filterSection GRSECURITY_WHITELIST gsec) :=
    dictGet_updateVal_self _ _ _ _ hgk
  rw [whitelist_configs_ok _ _ _ hk' hg', filterSection_idem, filterSection_idem,
    updateVal_same _ _ _ hk', updateVal_same _ _ _ hg']

theorem claim_C7_witness : whitelist_configs exReportFiltered = Except.ok exReportFiltered :=
  claim_C7 exReport [("gcc_stack_protector", 0), ("unrelated_flag", 1)]
    [("config_pax_aslr", 2), ("other_flag", 3)] rfl rfl exReportFiltered rfl

/-- Claim C10: the filter only deletes entries: allow-listed keys keep their
values (the filtered section is a sublist of the original containing every
allow-listed entry), and every top-level section other than `kernel` and
`grsecurity` is untouched. -/
theorem claim_C10 {α : Type} (r : AuditReport α) (ksec gsec : AuditSection α)
    (hk : dictGet "kernel" r = some ksec) (hg : dictGet "grsecurity" r = some gsec)
    (r' : AuditReport α) (h : whitelist_configs r = Except.ok r') :
    (∀ k, k ≠ "kernel" → k ≠ "grsecurity" → dictGet k r' = dictGet k r)
    ∧ dictGet "kernel" r' = some (filterSection KERNEL_WHITELIST ksec)
    ∧ dictGet "grsecurity" r' = some (filterSection GRSECURITY_WHITELIST gsec)
    ∧ List.Sublist (filterSection KERNEL_WHITELIST ksec) ksec
    ∧ List.Sublist (filterSection GRSECURITY_WHITELIST gsec) gsec
    ∧ (∀ key v, (key, v) ∈ ksec → key ∈ KERNEL_WHITELIST →
        (key, v) ∈ filterSection KERNEL_WHITELIST ksec)
    ∧ (∀ key v, (key, v) ∈ gsec → key ∈ GRSECURITY_WHITELIST →
        (key, v) ∈ filterSection GRSECURITY_WHITELIST gsec) := by
  rw [whitelist_configs_ok r ksec gsec hk hg] at h
  have hr' := Except.ok.inj h
  subst hr'
  have hgk : dictGet "grsecurity"
      (updateVal "kernel" (filterSection KERNEL_WHITELIST ksec) r) = some gsec := by
    rw [dictGet_updateVal_ne _ _ _ _ (by decide), hg]
  refine ⟨?_, ?_, ?_, List.filter_sublist _, List.filter_sublist _, ?_, ?_⟩
  · intro k hk1 hk2
    rw [dictGet_updateVal_ne _ _ _ _ hk2, dictGet_updateVal_ne _ _ _ _ hk1]
  · rw [dictGet_updateVal_ne _ _ _ _ (by decide)]
    exact dictGet_updateVal_self _ _ _ _ hk
  · exact dictGet_updateVal_self _ _ _ _ hgk
  · intro key v hmem hwl
    exact List.mem_filter.mpr ⟨hmem, by simpa using hwl⟩
  · intro key v hmem hwl
    exact List.mem_filter.mpr ⟨hmem, by simpa using hwl⟩

theorem claim_C10_witness :
    dictGet "kernel" exReportFiltered
      = some (filterSection KERNEL_WHITELIST [("gcc_stack_protector", (0 : Nat)),
          ("unrelated_flag", 1)]) :=
  (claim_C10 exReport [("gcc_stack_protector", 0), ("unrelated_flag", 1)]
    [("config_pax_aslr", 2), ("other_flag", 3)] rfl rfl exReportFiltered rfl).2.1

/-- Claim C1: the orchestrator's decision policy: plain-text MIME plus
classifier acceptance yields Found with the object's bytes verbatim as text;
otherwise a `configs.ko` file name or a `linux kernel` component hint runs the
Decompression Cascade and yields Found with its result iff the classifier
accepts that result; every other case yields NotAConfig (no
`is_kernel_config`/`kernel_config` keys, empty summary). -/
theorem claim_C1 {α : Type} (d : List Nat → List (List Nat))
    (a : List Nat → Except Unit (AuditReport α)) (fo : FileObject) :
    (∀ text, object_mime_is_plaintext fo = true → probably_kernel_config fo.binary = true →
      utf8Decode fo.binary = some text →
      process_object d a fo = Except.ok
        ⟨some true, some text, some ["Kernel Config"], some (check_kernel_config (a text))⟩)
    ∧ (∀ text, (object_mime_is_plaintext fo && probably_kernel_config fo.binary) = false →
      (fo.file_name = "configs.ko" ∨ object_is_kernel_image fo = true) →
      probably_kernel_config (try_object_extract_ikconfig d fo.binary) = true →
      utf8Decode (try_object_extract_ikconfig d fo.binary) = some text →
      process_object d a fo = Except.ok
        ⟨some true, some text, some ["Kernel Config"], some (check_kernel_config (a text))⟩)
    ∧ ((object_mime_is_plaintext fo && probably_kernel_config fo.binary) = false →
      (fo.file_name = "configs.ko" ∨ object_is_kernel_image fo = true) →
      probably_kernel_config (try_object_extract_ikconfig d fo.binary) = false →
      process_object d a fo = Except.ok ⟨none, none, some [], none⟩)
    ∧ ((object_mime_is_plaintext fo && probably_kernel_config fo.binary) = false →
      fo.file_name ≠ "configs.ko" → object_is_kernel_image fo = false →
      process_object d a fo = Except.ok ⟨none, none, some [], none⟩) := by
  refine ⟨?_, ?_, ?_, ?_⟩
  · intro text hm hp hdec
    exact process_object_eq_found_plain d a fo text (by rw [hm, hp]; rfl) hdec
  · intro text hc hk hp hdec
    refine process_object_eq_found_cascade d a fo text hc ?_ hp hdec
    rcases hk with h | h <;> simp [h]
  · intro hc hk hp
    refine process_object_eq_notconfig_cascade d a fo hc ?_ hp
    rcases hk with h | h <;> simp [h]
  · intro hc h1 h2
    exact process_object_eq_notconfig d a fo hc (by simp [h1, h2])

theorem claim_C1_witness :
    process_object noDecomp noAudit exPlainObject = Except.ok
      ⟨some true, some exConfigText, some ["Kernel Config"],
        some (check_kernel_config (noAudit exConfigText))⟩ :=
  (claim_C1 noDecomp noAudit exPlainObject).1 exConfigText (by decide) (by decide) (by decide)

/-- Claim C6: a Found verdict (`is_kernel_config` set, with its
`kernel_config` text) is only produced from bytes the classifier accepted,
and the surfaced text is exactly the decoding of those bytes; unclassified
text is never surfaced. -/
theorem claim_C6 {α : Type} (d : List Nat → List (List Nat))
    (a : List Nat → Except Unit (AuditReport α)) (fo : FileObject)
    (res : AnalysisResult α) (h : process_object d a fo = Except.ok res)
    (hfound : res.is_kernel_config = some true ∨ res.kernel_config ≠ none) :
    ∃ config_bytes text, probably_kernel_config config_bytes = true
      ∧ utf8Decode config_bytes = some text
      ∧ res.kernel_config = some text ∧ res.is_kernel_config = some true := by
  rcases process_object_shape d a fo with hsh | ⟨b, t, hp, hdec, hsh⟩
  · rw [h] at hsh
    have hre := Except.ok.inj hsh
    subst hre
    rcases hfound with hf | hf
    · exact absurd hf (by simp)
    · exact absurd rfl hf
  · rw [h] at hsh
    have hre := Except.ok.inj hsh
    subst hre
    exact ⟨b, t, hp, hdec, rfl, rfl⟩

theorem claim_C6_witness :
    ∃ config_bytes text, probably_kernel_config config_bytes = true
      ∧ utf8Decode config_bytes = some text
      ∧ (⟨some true, some exConfigText, some ["Kernel Config"], some []⟩ :
          AnalysisResult Unit).kernel_config = some text
      ∧ (⟨some true, some exConfigText, some ["Kernel Config"], some []⟩ :
          AnalysisResult Unit).is_kernel_config = some true :=
  claim_C6 noDecomp noAudit exPlainObject
    ⟨some true, some exConfigText, some ["Kernel Config"], some []⟩ rfl (Or.inl rfl)

/-- Claim C8: every result record carries a `summary` key (equal to
`['Kernel Config']` iff `is_kernel_config` is present and `True`, else `[]`),
`is_kernel_config` is never `False` (a negative verdict is the key's absence),
and `checksec` is present iff `kernel_config` is present. -/
theorem claim_C8 {α : Type} (d : List Nat → List (List Nat))
    (a : List Nat → Except Unit (AuditReport α)) (fo : FileObject)
    (res : AnalysisResult α) (h : process_object d a fo = Except.ok res) :
    res.summary = some (if res.is_kernel_config = some true then ["Kernel Config"] else [])
    ∧ res.is_kernel_config ≠ some false
    ∧ res.checksec.isSome = res.kernel_config.isSome := by
  rcases process_object_shape d a fo with hsh | ⟨b, t, hp, hdec, hsh⟩
  · rw [h] at hsh
    have hre := Except.ok.inj hsh
    subst hre
    exact ⟨by simp, by simp, rfl⟩
  · rw [h] at hsh
    have hre := Except.ok.inj hsh
    subst hre
    exact ⟨by simp, by simp, rfl⟩

theorem claim_C8_witness :
    (⟨none, none, some [], none⟩ : AnalysisResult Unit).summary
      = some (if (⟨none, none, some [], none⟩ : AnalysisResult Unit).is_kernel_config
            = some true then ["Kernel Config"] else [])
    ∧ (⟨none, none, some [], none⟩ : AnalysisResult Unit).is_kernel_config ≠ some false
    ∧ (⟨none, none, some [], none⟩ : AnalysisResult Unit).checksec.isSome
        = (⟨none, none, some [], none⟩ : AnalysisResult Unit).kernel_config.isSome :=
  claim_C8 noDecomp noAudit ⟨[], "firmware.bin", none, none⟩ ⟨none, none, some [], none⟩ rfl

end KernelConfig
